import Mathlib

/-!
Verification development for the `lumen/eir` compiler middle-end.

The Rust sources under `src/eir/src/new.rs`, `src/libeir_syntax_erl/src/
preprocessor/preprocessor.rs` and `src/util/libeir_util_number/src/integer.rs`
are embedded shallowly:

* entity ids (`Ebb`, `Op`, `Value`, `EbbCall`) become `Nat`;
* `PrimaryMap` arenas become `List` with `push` appending at the end
  (the fresh id is the old length);
* `SecondaryMap` side tables become total functions with the record
  default, updated pointwise;
* the two `ListPool`s are modelled by storing the pooled lists inline in
  the entity records (the externally visible contract, slice access, is
  unchanged — spec section 9);
* a Rust function that can panic (a failed `assert!`, an out-of-bounds
  arena index, or `Option::unwrap` on `None`) is embedded as an
  `Option`-returning function where `none` is the panic.

Collaborator code of the repository that is not part of the given
sources (for example `src/eir/src/op.rs` and `libeir_diagnostics`) is
modelled from the specification; each such definition carries a doc
comment starting with `Modelled from the spec:`.
-/

namespace Eir

/-- Basic block id (`Ebb(u32)` in `new.rs`). -/
abbrev Ebb := Nat

/-- Operation id (`Op(u32)` in `new.rs`). -/
abbrev Op := Nat

/-- SSA value or constant id (`Value(u32)` in `new.rs`). -/
abbrev Value := Nat

/-- Control edge id (`EbbCall(u32)` in `new.rs`). -/
abbrev EbbCall := Nat

/-- Layout node of a block (`EbbNode` in `new.rs`). -/
structure EbbNode where
  prev : Option Ebb := none
  next : Option Ebb := none
  first_op : Option Op := none
  last_op : Option Op := none
deriving DecidableEq, Repr, Inhabited

/-- Layout node of an op (`OpNode` in `new.rs`). -/
structure OpNode where
  ebb : Option Ebb := none
  prev : Option Op := none
  next : Option Op := none
deriving DecidableEq, Repr, Inhabited

/-- Intrusive layout of a function (`Layout` in `new.rs`).  The two
`SecondaryMap`s are modelled as total functions with the `Default`
record as default value. -/
structure Layout where
  ebbs : Ebb → EbbNode
  ops : Op → OpNode
  first_ebb : Option Ebb
  last_ebb : Option Ebb

namespace Layout

/-- `Layout::new`. -/
def new : Layout :=
  { ebbs := fun _ => {}, ops := fun _ => {}, first_ebb := none, last_ebb := none }

/-- Pointwise update of the block side table (a `SecondaryMap` store). -/
def setEbbNode (l : Layout) (e : Ebb) (n : EbbNode) : Layout :=
  { l with ebbs := fun x => if x = e then n else l.ebbs x }

/-- Pointwise update of the op side table (a `SecondaryMap` store). -/
def setOpNode (l : Layout) (o : Op) (n : OpNode) : Layout :=
  { l with ops := fun x => if x = o then n else l.ops x }

/-- `Layout::insert_ebb_first`.  Asserts that the layout holds no block
yet; `none` models the assertion failure. -/
def insert_ebb_first (l : Layout) (ebb : Ebb) : Option Layout :=
  if l.first_ebb.isNone ∧ l.last_ebb.isNone then
    some { l with first_ebb := some ebb, last_ebb := some ebb }
  else
    none

/-- `Layout::insert_ebb_after`.  The source carries a
`TODO: Validate not inserted` comment and performs no check at all; the
embedding is therefore a total function.  Note that `last_ebb` is never
updated. -/
def insert_ebb_after (l : Layout) (prev : Ebb) (ebb : Ebb) : Layout :=
  let next := (l.ebbs prev).next
  let l := l.setEbbNode prev { l.ebbs prev with next := some ebb }
  let l := l.setEbbNode ebb { l.ebbs ebb with prev := some prev, next := next }
  match next with
  | some n => l.setEbbNode n { l.ebbs n with prev := some ebb }
  | none => l

/-- `Layout::insert_op_after`.  `none` models any failed assertion. -/
def insert_op_after (l : Layout) (ebb : Ebb) (prev_op : Option Op) (op : Op) :
    Option Layout :=
  if (l.ops op).ebb ≠ none then none else
  let l := l.setOpNode op { l.ops op with ebb := some ebb }
  match prev_op with
  | some prev =>
    let next := (l.ops prev).next
    let l := l.setOpNode op { l.ops op with prev := some prev, next := next }
    let l := l.setOpNode prev { l.ops prev with next := some op }
    match next with
    | some n =>
      if (l.ops n).prev = some prev then
        some (l.setOpNode n { l.ops n with prev := some op })
      else none
    | none =>
      if (l.ebbs ebb).last_op = some prev then
        some (l.setEbbNode ebb { l.ebbs ebb with last_op := some op })
      else none
  | none =>
    let next := (l.ebbs ebb).first_op
    let l := l.setOpNode op { l.ops op with next := next }
    let l := l.setEbbNode ebb { l.ebbs ebb with first_op := some op }
    match next with
    | some n =>
      if (l.ops n).prev = none then
        some (l.setOpNode n { l.ops n with prev := some op })
      else none
    | none =>
      if (l.ebbs ebb).last_op = none then
        some (l.setEbbNode ebb { l.ebbs ebb with last_op := some op })
      else none

end Layout

end Eir

namespace Eir

/-- Function identity `(module, name, arity)` — spec section 4.3.
Modelled from the spec: `FunctionIdent` is declared in `src/eir/src/lib.rs`,
which is not part of the given sources. -/
structure FunctionIdent where
  module : String
  name : String
  arity : Nat
deriving DecidableEq, Repr

/-- Modelled from the spec: a pattern clause consumed by `op_case_start`
(section 4.7); the builder stores clauses opaquely, so its inner
structure is irrelevant here. -/
inductive Clause
  | mk
deriving DecidableEq, Repr

/-- Modelled from the spec: an atomic literal (section 3, Value). -/
inductive AtomicTerm
  | Atom (s : String)
  | Int (i : Int)
  | Nil
deriving DecidableEq, Repr

/-- Modelled from the spec: a constant term (section 3, Value); `new.rs`
only ever builds the atomic variant. -/
inductive ConstantTerm
  | Atomic (t : AtomicTerm)
deriving DecidableEq, Repr

/-- Closure environment index (`LambdaEnvIdx` from `lib.rs`). -/
abbrev LambdaEnvIdx := Nat

/-- Modelled from the spec: `OpKind` is declared in `src/eir/src/op.rs`,
which is not part of the given sources.  The constructors are exactly
those used by `new.rs`, plus `Unreachable` (spec section 3 lists it as a
terminator and `new.rs` names `op_unreachable`). -/
inductive OpKind
  | Move
  | Jump
  | Call (tail_call : Bool)
  | Apply (tail_call : Bool)
  | CaptureNamedFunction (ident : FunctionIdent)
  | UnpackValueList
  | PackValueList
  | ReturnThrow
  | ReturnOk
  | UnpackEnv
  | BindClosure (ident : FunctionIdent)
  | MakeTuple
  | MakeList
  | MakeClosureEnv (env_idx : LambdaEnvIdx)
  | CaseStart (clauses : List Clause)
  | Case (num_clauses : Nat)
  | CaseValues
  | CaseGuardOk
  | CaseGuardFail (clause_num : Nat)
  | IfTruthy
  | Unreachable
deriving DecidableEq, Repr

namespace OpKind

/-- Modelled from the spec: `OpKind::is_block_terminator` lives in
`src/eir/src/op.rs`, absent from the given sources.  Spec section 3
(Invariants): terminators are "jump, return-ok, return-throw,
tail-call/apply, case-body, branch-not-truthy closing edges,
unreachable". -/
def isBlockTerminator : OpKind → Bool
  | .Jump => true
  | .ReturnOk => true
  | .ReturnThrow => true
  | .Call tail_call => tail_call
  | .Apply tail_call => tail_call
  | .Case _ => true
  | .IfTruthy => true
  | .Unreachable => true
  | _ => false

end OpKind

/-- Payload of an op (`OpData` in `new.rs`); pooled entity lists are
stored inline. -/
structure OpData where
  kind : OpKind
  reads : List Value
  writes : List Value
  ebb_calls : List EbbCall
deriving DecidableEq, Repr

/-- Payload of a block (`EbbData` in `new.rs`). -/
structure EbbData where
  arguments : List Value
  finished : Bool
deriving DecidableEq, Repr

/-- `ValueType` in `new.rs`. -/
inductive ValueType
  | Variable
  | Constant (c : ConstantTerm)
deriving DecidableEq, Repr

/-- Payload of a block-call edge (`EbbCallData` in `new.rs`). -/
structure EbbCallData where
  block : Ebb
  values : List Value
deriving DecidableEq, Repr

/-- The function IR (`Function` in `new.rs`).  Each `PrimaryMap` arena
is a list; `push` appends and returns the old length as the fresh id. -/
structure Function where
  ident : FunctionIdent
  layout : Layout
  ops : List OpData
  ebbs : List EbbData
  values : List ValueType
  ebb_calls : List EbbCallData
  fun_refs : List FunctionIdent

namespace Function

/-- `Function::new`. -/
def new (ident : FunctionIdent) : Function :=
  { ident := ident, layout := Layout.new, ops := [], ebbs := [],
    values := [], ebb_calls := [], fun_refs := [] }

/-- `Function::new_variable`: pushes a `Variable` entry, the fresh id is
the old arena length. -/
def new_variable (f : Function) : Function × Value :=
  ({ f with values := f.values ++ [ValueType.Variable] }, f.values.length)

/-- `Function::validate`.  The source body is empty: it checks
nothing. -/
def validate (_f : Function) : Unit := ()

/-- Kind of the op with id `o` (`Function::op_kind`; `none` models the
arena index panic). -/
def opKind? (f : Function) (o : Op) : Option OpKind :=
  (f.ops[o]?).map OpData.kind

/-- Kind of the last op of block `e` in layout order, when present. -/
def lastOpKind? (f : Function) (e : Ebb) : Option OpKind :=
  match (f.layout.ebbs e).last_op with
  | some o => f.opKind? o
  | none => none

end Function

/-- `BuilderState` in `new.rs`. -/
inductive BuilderState
  | Build
  | OutstandingEbbCalls (n : Nat)
deriving DecidableEq, Repr

/-- `FunctionBuilder` in `new.rs`; the `&mut Function` borrow becomes an
owned field threaded through every operation. -/
structure FunctionBuilder where
  fn : Function
  current_ebb : Option Ebb
  current_op : Option Op
  state : BuilderState

namespace FunctionBuilder

/-- `FunctionBuilder::new`. -/
def new (f : Function) : FunctionBuilder :=
  { fn := f, current_ebb := none, current_op := none, state := .Build }

/-- `FunctionBuilder::gen_variables`: allocate `num` fresh variables
(the Rust code clears and refills the out-parameter vector). -/
def gen_variables (b : FunctionBuilder) (num : Nat) :
    FunctionBuilder × List Value :=
  (List.range num).foldl
    (fun (acc : FunctionBuilder × List Value) _ =>
      let (f, v) := acc.1.fn.new_variable
      ({ acc.1 with fn := f }, acc.2 ++ [v]))
    (b, [])

/-- `FunctionBuilder::insert_op`, the shared assertion core of every op
constructor.  `none` models a failed assertion or the explicit
`panic!` taken when the op at the cursor is an unconditional `Jump`
(the only kind the source checks). -/
def insert_op (b : FunctionBuilder) (data : OpData) :
    Option (FunctionBuilder × Op) :=
  if b.state ≠ .Build then none else
  match b.current_ebb with
  | none => none
  | some ebb =>
    match b.fn.ebbs[ebb]? with
    | none => none
    | some ebbData =>
      if ebbData.finished then none else
      let jumpPanic : Bool :=
        match b.current_op with
        | some op =>
          match b.fn.ops[op]? with
          | none => true
          | some od => od.kind == .Jump
        | none => false
      if jumpPanic then none else
      let op := b.fn.ops.length
      let fn := { b.fn with ops := b.fn.ops ++ [data] }
      match fn.layout.insert_op_after ebb b.current_op op with
      | none => none
      | some layout =>
        some ({ b with fn := { fn with layout := layout },
                       current_op := some op }, op)

/-- `FunctionBuilder::insert_ebb_entry`. -/
def insert_ebb_entry (b : FunctionBuilder) :
    Option (FunctionBuilder × Ebb) :=
  let ebb := b.fn.ebbs.length
  let fn := { b.fn with ebbs := b.fn.ebbs ++ [({ arguments := [], finished := false } : EbbData)] }
  match fn.layout.insert_ebb_first ebb with
  | none => none
  | some layout => some ({ b with fn := { fn with layout := layout } }, ebb)

/-- `FunctionBuilder::insert_ebb` (splices after the current block;
`none` models the `unwrap` on an absent current block). -/
def insert_ebb (b : FunctionBuilder) : Option (FunctionBuilder × Ebb) :=
  match b.current_ebb with
  | none => none
  | some cur =>
    let ebb := b.fn.ebbs.length
    let fn := { b.fn with ebbs := b.fn.ebbs ++ [({ arguments := [], finished := false } : EbbData)] }
    let layout := fn.layout.insert_ebb_after cur ebb
    some ({ b with fn := { fn with layout := layout } }, ebb)

/-- `FunctionBuilder::finish_ebb`: sets the `finished` flag and nothing
else. -/
def finish_ebb (b : FunctionBuilder) (ebb : Ebb) : Option FunctionBuilder :=
  match b.fn.ebbs[ebb]? with
  | none => none
  | some d =>
    some { b with fn := { b.fn with ebbs := b.fn.ebbs.set ebb { d with finished := true } } }

/-- `FunctionBuilder::add_ebb_argument`. -/
def add_ebb_argument (b : FunctionBuilder) (ebb : Ebb) :
    Option (FunctionBuilder × Value) :=
  match b.fn.ebbs[ebb]? with
  | none => none
  | some d =>
    if d.finished then none else
    let (fn, value) := b.fn.new_variable
    match fn.ebbs[ebb]? with
    | none => none
    | some d =>
      some ({ b with fn := { fn with ebbs := fn.ebbs.set ebb { d with arguments := d.arguments ++ [value] } } }, value)

/-- `FunctionBuilder::position_at_end`: move the cursor to the end of
`ebb`; asserts the builder is in `Build` state and that the last op, if
any, is not a block terminator. -/
def position_at_end (b : FunctionBuilder) (ebb : Ebb) :
    Option FunctionBuilder :=
  if b.state ≠ .Build then none else
  let last_op := (b.fn.layout.ebbs ebb).last_op
  let b := { b with current_ebb := some ebb, current_op := last_op }
  match last_op with
  | none => some b
  | some op =>
    match b.fn.ops[op]? with
    | none => none
    | some od => if od.kind.isBlockTerminator then none else some b

/-- `FunctionBuilder::create_atomic`. -/
def create_atomic (b : FunctionBuilder) (atomic : AtomicTerm) :
    FunctionBuilder × Value :=
  ({ b with fn := { b.fn with values := b.fn.values ++ [ValueType.Constant (ConstantTerm.Atomic atomic)] } },
   b.fn.values.length)

/-- `FunctionBuilder::create_constant`. -/
def create_constant (b : FunctionBuilder) (c : ConstantTerm) :
    FunctionBuilder × Value :=
  ({ b with fn := { b.fn with values := b.fn.values ++ [ValueType.Constant c] } },
   b.fn.values.length)

/-- `FunctionBuilder::create_ebb_call`: allocates a block-call entity;
no checks. -/
def create_ebb_call (b : FunctionBuilder) (ebb : Ebb) (values : List Value) :
    FunctionBuilder × EbbCall :=
  ({ b with fn := { b.fn with ebb_calls := b.fn.ebb_calls ++ [{ block := ebb, values := values }] } },
   b.fn.ebb_calls.length)

/-- `FunctionBuilder::add_op_ebb_call`: attaches one pending edge to the
op at the cursor while edges are outstanding; in `Build` state the
`if let` does not match and the builder is returned untouched. -/
def add_op_ebb_call (b : FunctionBuilder) (call : EbbCall) :
    Option FunctionBuilder :=
  match b.state with
  | .Build => some b
  | .OutstandingEbbCalls outstanding =>
    let outstanding := outstanding - 1
    match b.current_op with
    | none => none
    | some op =>
      match b.fn.ops[op]? with
      | none => none
      | some od =>
        let fn := { b.fn with ops := b.fn.ops.set op { od with ebb_calls := od.ebb_calls ++ [call] } }
        let state := if outstanding = 0 then BuilderState.Build
                     else BuilderState.OutstandingEbbCalls outstanding
        some { b with fn := fn, state := state }

end FunctionBuilder

end Eir

namespace Eir

namespace FunctionBuilder

/-- `FunctionBuilder::op_move`. -/
def op_move (b : FunctionBuilder) (value : Value) :
    Option (FunctionBuilder × Value) :=
  let (fn, result) := b.fn.new_variable
  let b := { b with fn := fn }
  match b.insert_op { kind := .Move, reads := [value], writes := [result],
                      ebb_calls := [] } with
  | none => none
  | some (b, _) => some (b, result)

/-- `FunctionBuilder::op_jump`. -/
def op_jump (b : FunctionBuilder) (ebb_call : EbbCall) :
    Option FunctionBuilder :=
  match b.insert_op { kind := .Jump, reads := [], writes := [],
                      ebb_calls := [ebb_call] } with
  | none => none
  | some (b, _) => some b

/-- `FunctionBuilder::op_call`: reads `[module, name, ...args]`, writes
two fresh variables, then enters `OutstandingEbbCalls 1`. -/
def op_call (b : FunctionBuilder) (module : Value) (name : Value)
    (args : List Value) : Option (FunctionBuilder × Value × Value) :=
  let reads := [module, name] ++ args
  let (fn, result_ok) := b.fn.new_variable
  let (fn, result_err) := fn.new_variable
  let b := { b with fn := fn }
  match b.insert_op { kind := .Call false, reads := reads,
                      writes := [result_ok, result_err], ebb_calls := [] } with
  | none => none
  | some (b, _) =>
    some ({ b with state := .OutstandingEbbCalls 1 }, result_ok, result_err)

/-- `FunctionBuilder::op_apply`. -/
def op_apply (b : FunctionBuilder) (f : Value) (args : List Value) :
    Option (FunctionBuilder × Value × Value) :=
  let reads := [f] ++ args
  let (fn, result_ok) := b.fn.new_variable
  let (fn, result_err) := fn.new_variable
  let b := { b with fn := fn }
  match b.insert_op { kind := .Apply false, reads := reads,
                      writes := [result_ok, result_err], ebb_calls := [] } with
  | none => none
  | some (b, _) =>
    some ({ b with state := .OutstandingEbbCalls 1 }, result_ok, result_err)

/-- `FunctionBuilder::op_return_throw`. -/
def op_return_throw (b : FunctionBuilder) (value : Value) :
    Option FunctionBuilder :=
  match b.insert_op { kind := .ReturnThrow, reads := [value], writes := [],
                      ebb_calls := [] } with
  | none => none
  | some (b, _) => some b

/-- `FunctionBuilder::op_return_ok`. -/
def op_return_ok (b : FunctionBuilder) (value : Value) :
    Option FunctionBuilder :=
  match b.insert_op { kind := .ReturnOk, reads := [value], writes := [],
                      ebb_calls := [] } with
  | none => none
  | some (b, _) => some b

/-- `FunctionBuilder::op_case_start`: allocates the case value, creates
the single edge to the body block itself and attaches it directly; the
builder state is not touched. -/
def op_case_start (b : FunctionBuilder) (clauses : List Clause)
    (value : Value) (value_vars : List Value) (body : Ebb) :
    Option (FunctionBuilder × Value) :=
  let (fn, result) := b.fn.new_variable
  let b := { b with fn := fn }
  let reads := [value] ++ value_vars
  let (b, call) := b.create_ebb_call body []
  match b.insert_op { kind := .CaseStart clauses, reads := reads,
                      writes := [result], ebb_calls := [call] } with
  | none => none
  | some (b, _) => some (b, result)

/-- `FunctionBuilder::op_case_body`: emits the `Case` op and enters
`OutstandingEbbCalls (num_clauses + 1)`. -/
def op_case_body (b : FunctionBuilder) (case_val : Value)
    (num_clauses : Nat) : Option FunctionBuilder :=
  match b.insert_op { kind := .Case num_clauses, reads := [case_val],
                      writes := [], ebb_calls := [] } with
  | none => none
  | some (b, _) => some { b with state := .OutstandingEbbCalls (num_clauses + 1) }

/-- `FunctionBuilder::op_case_values`. -/
def op_case_values (b : FunctionBuilder) (case_val : Value)
    (num_results : Nat) : Option (FunctionBuilder × List Value) :=
  let (b, results) := b.gen_variables num_results
  match b.insert_op { kind := .CaseValues, reads := [case_val],
                      writes := results, ebb_calls := [] } with
  | none => none
  | some (b, _) => some (b, results)

/-- `FunctionBuilder::op_branch_not_truthy`: emits the `IfTruthy` op
with its single edge attached directly; the builder state is not
touched. -/
def op_branch_not_truthy (b : FunctionBuilder) (value : Value)
    (call : EbbCall) : Option FunctionBuilder :=
  match b.insert_op { kind := .IfTruthy, reads := [value], writes := [],
                      ebb_calls := [call] } with
  | none => none
  | some (b, _) => some b

end FunctionBuilder

end Eir

namespace EirNumber

/-- The two-representation integer of
`src/util/libeir_util_number/src/integer.rs`: a 64-bit small path and an
arbitrary-precision fallback.  Both payloads are modelled as
mathematical integers; the `i64` range restriction of `Small` is
irrelevant to the comparison contract verified here. -/
inductive Integer
  | Small (i : Int)
  | Big (i : Int)
deriving DecidableEq, Repr

namespace Integer

/-- The mathematical value of an `Integer`. -/
def toInt : Integer → Int
  | .Small i => i
  | .Big i => i

/-- `PartialEq::eq` for `Integer`: the four-arm match of the source;
each arm delegates to the value comparison of the standard library or
of the big-integer library, both of which compare by mathematical
value. -/
def beq : Integer → Integer → Bool
  | .Small a, .Small b => a == b
  | .Small a, .Big b => a == b
  | .Big a, .Small b => a == b
  | .Big a, .Big b => a == b

/-- `PartialOrd::partial_cmp` for `Integer`: the four-arm match of the
source; every delegated comparison (`i64` vs `i64`, `i64` vs `BigInt`,
`BigInt` vs `i64`, `BigInt` vs `BigInt`) is total and returns
`Some` of the mathematical ordering. -/
def cmpPart : Integer → Integer → Option Ordering
  | .Small a, .Small b => some (compare a b)
  | .Small a, .Big b => some (compare a b)
  | .Big a, .Small b => some (compare a b)
  | .Big a, .Big b => some (compare a b)

/-- `Ord::cmp` for `Integer`: `partial_cmp(..).unwrap()`; `none` models
the `unwrap` panic on a `None` comparison. -/
def cmpFull (a b : Integer) : Option Ordering :=
  a.cmpPart b

end Integer

end EirNumber

namespace ErlPreproc

/-- A position in a source file.  The Rust `SourceIndex` packs a source
id and a byte index; we keep the two components explicit. -/
structure SourceIndex where
  sourceId : Nat
  index : Nat
deriving DecidableEq, Repr

/-- Modelled from the spec: the `UNKNOWN` sentinel index used for
synthesized tokens. -/
def SourceIndex.unknown : SourceIndex := { sourceId := 0, index := 0 }

/-- `DelayedSubstitution` tags from the lexer (spec section 4.6:
placeholders resolved later by the lowering layer). -/
inductive DelayedSubstitution
  | FunctionName
  | FunctionArity
deriving DecidableEq, Repr

/-- Modelled from the spec: the lexer token alphabet, reduced to the
shapes the preprocessor inspects or produces (the period, the directive
leader, the macro-call leader, punctuation, literals and
identifiers). -/
inductive Token
  | Dot
  | Dash
  | Question
  | LParen
  | RParen
  | Comma
  | AtomTok (s : String)
  | VarTok (s : String)
  | IntTok (i : Int)
  | StrTok (s : String)
  | DelayedTok (d : DelayedSubstitution)
deriving DecidableEq, Repr

/-- `LexicalToken`: a token with its span endpoints. -/
structure LexicalToken where
  startIdx : SourceIndex
  token : Token
  endIdx : SourceIndex
deriving DecidableEq, Repr

/-- Modelled from the spec: the textual form of a token, used by `??X`
stringification ("the whitespace-insensitive concatenation of the bound
tokens"). -/
def Token.text : Token → String
  | .Dot => "."
  | .Dash => "-"
  | .Question => "?"
  | .LParen => "("
  | .RParen => ")"
  | .Comma => ","
  | .AtomTok s => s
  | .VarTok s => s
  | .IntTok i => toString i
  | .StrTok s => s
  | .DelayedTok _ => ""

/-- Modelled from the spec: a source file held by the code map of
`libeir_diagnostics` (not part of the given sources).  `lineStarts`
lists the starting byte offset of every line, beginning with offset 0
for the first line. -/
structure SourceFile where
  name : String
  lineStarts : List Nat
deriving DecidableEq, Repr

/-- Modelled from the spec: `SourceFile::line_index` of
`libeir_diagnostics` (not part of the given sources).  Spec section 4.6
describes the observable contract: `LINE` expands to "the 1-based line
index at the call site", so the line containing byte offset `idx` is
the number of line starts at or before `idx`, which is 1 for any offset
on the first line. -/
def SourceFile.lineIndex (f : SourceFile) (idx : Nat) : Nat :=
  (f.lineStarts.filter (fun s => s ≤ idx)).length

/-- Macro identity: a parameterless constant name or a name/arity pair
(spec section 4.6). -/
inductive MacroIdent
  | Const (name : String)
  | Func (name : String) (arity : Nat)
deriving DecidableEq, Repr

/-- `MacroIdent::name`. -/
def MacroIdent.name : MacroIdent → String
  | .Const n => n
  | .Func n _ => n

/-- The payload of a `-define` directive and of a `MacroDef::Static`
definition: formal parameter names (absent for constant-style defines)
and the replacement token sequence. -/
structure MacroDefine where
  defName : String
  vars : Option (List String)
  replacement : List LexicalToken
deriving DecidableEq, Repr

/-- `MacroDefine`'s identity: name/arity when it has a parameter list,
else the constant identity. -/
def MacroDefine.ident (d : MacroDefine) : MacroIdent :=
  match d.vars with
  | none => .Const d.defName
  | some vs => .Func d.defName vs.length

/-- `MacroDef` (spec section 4.6, expansion dispatch). -/
inductive MacroDef
  | Boolean (b : Bool)
  | String (s : String)
  | Static (d : MacroDefine)
  | Dynamic (replacement : List LexicalToken)
  | DelayedSubstitution (d : DelayedSubstitution)
deriving DecidableEq, Repr

/-- A recognized macro call: name, optional argument token groups, and
the call-site span. -/
structure MacroCall where
  callName : String
  args : Option (List (List LexicalToken))
  span_start : SourceIndex
  span_end : SourceIndex
deriving DecidableEq, Repr

/-- The macro-call identity used for container lookup: the argument
count at the call site, or the constant identity when the call has no
parenthesized arguments (spec section 4.6, step 2). -/
def MacroCall.ident (c : MacroCall) : MacroIdent :=
  match c.args with
  | none => .Const c.callName
  | some xs => .Func c.callName xs.length

/-- Modelled from the spec: the `MacroContainer` of
`preprocessor/macros.rs` (not part of the given sources), a map from
macro identity to definition.  Newer insertions shadow older ones. -/
structure MacroContainer where
  defs : List (MacroIdent × MacroDef)
deriving DecidableEq, Repr

namespace MacroContainer

/-- Empty container (`MacroContainer::new`). -/
def new : MacroContainer := { defs := [] }

/-- Insert a definition under an identity. -/
def insert (c : MacroContainer) (i : MacroIdent) (d : MacroDef) :
    MacroContainer :=
  { defs := (i, d) :: c.defs }

/-- Lookup by exact identity. -/
def getIdent (c : MacroContainer) (i : MacroIdent) : Option MacroDef :=
  (c.defs.find? (fun p => p.1 == i)).map (fun p => p.2)

/-- Lookup for a call site (by the call's identity). -/
def get (c : MacroContainer) (call : MacroCall) : Option MacroDef :=
  c.getIdent call.ident

/-- `defined`: is any definition registered under this name? -/
def defined (c : MacroContainer) (name : String) : Bool :=
  c.defs.any (fun p => p.1.name == name)

/-- `undef`: remove every definition with this name (spec section 4.6:
"removes all matching definitions"). -/
def undef (c : MacroContainer) (name : String) : MacroContainer :=
  { defs := c.defs.filter (fun p => p.1.name ≠ name) }

end MacroContainer

/-- A conditional-compilation frame (`Branch` in `preprocessor.rs`). -/
structure Branch where
  then_branch : Bool
  entered : Bool
deriving DecidableEq, Repr

/-- `Branch::new`. -/
def Branch.new (entered : Bool) : Branch :=
  { then_branch := true, entered := entered }

/-- `Branch::switch_to_else_branch`: fails when already in the else
branch, otherwise flips `entered`. -/
def Branch.switch_to_else_branch (b : Branch) : Option Branch :=
  if !b.then_branch then none
  else some { then_branch := false, entered := !b.entered }

/-- The preprocessor directives dispatched by `try_read_directive`.
The `Directive` enum itself lives in the preprocessor's `directives`
module, not part of the given sources; the payloads are modelled from
the spec (section 4.6).  The conditional expressions of `-if`/`-elif`
are represented by their evaluated truth value, since their evaluation
goes through the external parser and constant folder. -/
inductive Directive
  | Module (name : String) (start : SourceIndex)
  | Include (path : String)
  | IncludeLib (path : String)
  | Define (d : MacroDefine)
  | Undef (name : String)
  | Ifdef (name : String)
  | If (cond : Bool)
  | Ifndef (name : String)
  | Else
  | Elif (cond : Bool)
  | Endif
  | Error (msg : String)
  | Warning (msg : String)
  | File
deriving DecidableEq, Repr

/-- The preprocessor state (`Preprocessor` in `preprocessor.rs`).  The
reader is modelled as the buffered list `tokens`; `include_files` is
the modelled filesystem used by include resolution (a map from resolved
path to the included token stream); the `directives` and `macro_calls`
record maps are kept as lists in recording order.  The branch stack has
its top at the head. -/
structure Preprocessor where
  codemap : List SourceFile
  can_directive_start : Bool
  directives : List Directive
  include_files : List (String × List LexicalToken)
  branches : List Branch
  macros : MacroContainer
  macro_calls : List MacroCall
  expanded_tokens : List LexicalToken
  tokens : List LexicalToken
  warnings_as_errors : Bool
  no_warn : Bool
deriving DecidableEq, Repr

namespace Preprocessor

/-- `Preprocessor::ignore`: some conditional frame was not entered. -/
def ignore (pp : Preprocessor) : Bool :=
  pp.branches.any (fun b => !b.entered)

end Preprocessor

end ErlPreproc

namespace ErlPreproc

/-- `IdentToken::try_from`: the identifier symbol of a token, when it is
an identifier (atom or variable). -/
def identSym? : Token → Option String
  | .AtomTok s => some s
  | .VarTok s => some s
  | _ => none

/-- Modelled from the spec: the reader's `try_read_macro_call`
(`token_reader.rs` is not part of the given sources).  It recognizes a
call to any known macro — a `?` leader followed by an identifier naming
a container entry or one of the predefined probes `FILE`, `LINE`,
`MACHINE` (spec sections 4.5 and 4.6).  Argument-list parsing is
omitted: calls are recognized in the no-argument constant form. -/
def tryReadMacroCall (macros : MacroContainer) :
    List LexicalToken → Option (MacroCall × List LexicalToken)
  | t0 :: t1 :: rest =>
    match t0.token with
    | .Question =>
      match identSym? t1.token with
      | none => none
      | some name =>
        if macros.defined name || name == "FILE" || name == "LINE"
            || name == "MACHINE" then
          some ({ callName := name, args := none, span_start := t0.startIdx,
                  span_end := t1.endIdx }, rest)
        else none
    | _ => none
  | _ => none

/-- Modelled from the spec: the reader's typed read of a `??X`
stringification request (spec section 4.5). -/
def tryReadStringify : List LexicalToken → Option (String × List LexicalToken)
  | t0 :: t1 :: t2 :: rest =>
    match t0.token, t1.token with
    | .Question, .Question =>
      match identSym? t2.token with
      | some s => some (s, rest)
      | none => none
    | _, _ => none
  | _ => none

/-- `Preprocessor::try_expand_predefined_macro`.  The outer `Option`
models the `unwrap` panic when the call's source id is missing from the
code map; the inner `Option` is the source's `Option` (`none` when the
name is not a predefined probe). -/
def tryExpandPredefined (pp : Preprocessor) (call : MacroCall) :
    Option (Option LexicalToken) :=
  match call.callName with
  | "FILE" =>
    match pp.codemap[call.span_start.sourceId]? with
    | none => none
    | some file =>
      some (some { startIdx := call.span_start, token := .StrTok file.name,
                   endIdx := call.span_end })
  | "LINE" =>
    match pp.codemap[call.span_start.sourceId]? with
    | none => none
    | some file =>
      some (some { startIdx := call.span_start,
                   token := .IntTok (Int.ofNat (file.lineIndex call.span_start.index)),
                   endIdx := call.span_end })
  | "MACHINE" =>
    some (some { startIdx := call.span_start, token := .AtomTok "Lumen",
                 endIdx := call.span_end })
  | _ => some none

mutual

/-- `Preprocessor::expand_macro`, fueled: the predefined probe first
(its single token becomes a one-element stream), otherwise the
user-defined dispatch.  Fuel exhaustion and every error path are
`none`. -/
def expandMacroFuel : Nat → Preprocessor → MacroCall →
    Option (List LexicalToken)
  | 0, _, _ => none
  | Nat.succ fuel, pp, call =>
    match tryExpandPredefined pp call with
    | none => none
    | some (some t) => some [t]
    | some none => expandUserdefinedFuel fuel pp call

/-- `Preprocessor::expand_userdefined_macro`, fueled. -/
def expandUserdefinedFuel : Nat → Preprocessor → MacroCall →
    Option (List LexicalToken)
  | 0, _, _ => none
  | Nat.succ fuel, pp, call =>
    match pp.macros.get call with
    | none => none
    | some (.Dynamic replacement) => some replacement
    | some (.String s) =>
      some [{ startIdx := SourceIndex.unknown, token := .StrTok s,
              endIdx := SourceIndex.unknown }]
    | some (.Boolean true) =>
      some [{ startIdx := SourceIndex.unknown, token := .AtomTok "true",
              endIdx := SourceIndex.unknown }]
    | some (.Boolean false) => some []
    | some (.Static d) =>
      let arity := match d.vars with | none => 0 | some v => v.length
      let argc := match call.args with | none => 0 | some a => a.length
      if arity ≠ argc then none
      else
        let formals := match d.vars with | none => [] | some v => v
        let actuals := match call.args with | none => [] | some a => a
        expandReplacementFuel fuel pp (formals.zip actuals) d.replacement []
    | some (.DelayedSubstitution subst) =>
      some [{ startIdx := call.span_start, token := .DelayedTok subst,
              endIdx := call.span_end }]

/-- `Preprocessor::expand_replacement`, fueled: runs a buffered reader
over the replacement, expanding nested macro calls (pushed back in
front of the remaining input), `??X` stringifications, and bound
identifiers (recursively expanded under empty bindings). -/
def expandReplacementFuel : Nat → Preprocessor →
    List (String × List LexicalToken) → List LexicalToken →
    List LexicalToken → Option (List LexicalToken)
  | 0, _, _, _, _ => none
  | Nat.succ fuel, pp, bindings, reader, acc =>
    match tryReadMacroCall pp.macros reader with
    | some (call, rest) =>
      match expandMacroFuel fuel pp call with
      | none => none
      | some nested => expandReplacementFuel fuel pp bindings (nested ++ rest) acc
    | none =>
      match tryReadStringify reader with
      | some (name, rest) =>
        match bindings.lookup name with
        | none => none
        | some [] => none
        | some (t0 :: ts) =>
          let s := String.join (((t0 :: ts)).map (fun t => t.token.text))
          expandReplacementFuel fuel pp bindings rest
            (acc ++ [{ startIdx := t0.startIdx, token := .StrTok s,
                       endIdx := t0.endIdx }])
      | none =>
        match reader with
        | [] => some acc
        | t :: rest =>
          match identSym? t.token with
          | some sym =>
            match bindings.lookup sym with
            | some value =>
              match expandReplacementFuel fuel pp [] value [] with
              | none => none
              | some nested =>
                expandReplacementFuel fuel pp bindings rest (acc ++ nested)
            | none => expandReplacementFuel fuel pp bindings rest (acc ++ [t])
          | none => expandReplacementFuel fuel pp bindings rest (acc ++ [t])

end

end ErlPreproc

namespace ErlPreproc

/-- Modelled from the spec: the reader's typed directive read
(`token_reader.rs` is not part of the given sources).  Spec section 6:
a directive begins with `-` followed by an identifier and ends at a
top-level `.`; only the forms needed here are recognized, in the
single-argument shape `-name(arg).` or the bare shape `-name.`. -/
def tryParseDirective : List LexicalToken →
    Option (Directive × List LexicalToken)
  | t0 :: t1 :: rest =>
    match t0.token, t1.token with
    | .Dash, .AtomTok name =>
      match name, rest with
      | "module", a :: b :: c :: d :: r =>
        match a.token, b.token, c.token, d.token with
        | .LParen, .AtomTok m, .RParen, .Dot =>
          some (.Module m t0.startIdx, r)
        | _, _, _, _ => none
      | "include", a :: b :: c :: d :: r =>
        match a.token, b.token, c.token, d.token with
        | .LParen, .StrTok p, .RParen, .Dot => some (.Include p, r)
        | _, _, _, _ => none
      | "include_lib", a :: b :: c :: d :: r =>
        match a.token, b.token, c.token, d.token with
        | .LParen, .StrTok p, .RParen, .Dot => some (.IncludeLib p, r)
        | _, _, _, _ => none
      | "ifdef", a :: b :: c :: d :: r =>
        match a.token, identSym? b.token, c.token, d.token with
        | .LParen, some n, .RParen, .Dot => some (.Ifdef n, r)
        | _, _, _, _ => none
      | "ifndef", a :: b :: c :: d :: r =>
        match a.token, identSym? b.token, c.token, d.token with
        | .LParen, some n, .RParen, .Dot => some (.Ifndef n, r)
        | _, _, _, _ => none
      | "undef", a :: b :: c :: d :: r =>
        match a.token, identSym? b.token, c.token, d.token with
        | .LParen, some n, .RParen, .Dot => some (.Undef n, r)
        | _, _, _, _ => none
      | "else", a :: r =>
        match a.token with
        | .Dot => some (.Else, r)
        | _ => none
      | "endif", a :: r =>
        match a.token with
        | .Dot => some (.Endif, r)
        | _ => none
      | _, _ => none
    | _, _ => none
  | _ => none

/-- Modelled from the spec: `ModuleDirective::expand` — the module
directive is re-expanded back into the token stream for the parser
(spec section 4.6). -/
def moduleExpand (name : String) (s : SourceIndex) : List LexicalToken :=
  [ { startIdx := s, token := .Dash, endIdx := s },
    { startIdx := s, token := .AtomTok "module", endIdx := s },
    { startIdx := s, token := .LParen, endIdx := s },
    { startIdx := s, token := .AtomTok name, endIdx := s },
    { startIdx := s, token := .RParen, endIdx := s },
    { startIdx := s, token := .Dot, endIdx := s } ]

/-- The directive dispatch of `Preprocessor::try_read_directive`
(the `match directive` statement).  `none` models every `Err(())`
return (orphaned else/endif, unresolved include, `-error`, and
`-warning` under `warnings_as_errors`).  Arms whose source guard
`if !ignore` fails fall through to the wildcard arm, which leaves the
state untouched and returns the directive. -/
def dispatchDirective (pp : Preprocessor) (d : Directive) :
    Option (Preprocessor × Directive) :=
  let ignore := pp.ignore
  match d with
  | .Module name _ =>
    let m := pp.macros.insert (.Const "MODULE") (.String name)
    let m := m.insert (.Const "MODULE_STRING") (.String name)
    some ({ pp with macros := m }, d)
  | .Include path =>
    if !ignore then
      match pp.include_files.lookup path with
      | none => none
      | some toks => some ({ pp with tokens := toks ++ pp.tokens }, d)
    else some (pp, d)
  | .IncludeLib path =>
    if !ignore then
      match pp.include_files.lookup path with
      | none => none
      | some toks => some ({ pp with tokens := toks ++ pp.tokens }, d)
    else some (pp, d)
  | .Define dd =>
    if !ignore then
      some ({ pp with macros := pp.macros.insert dd.ident (.Static dd) }, d)
    else some (pp, d)
  | .Undef name =>
    if !ignore then
      some ({ pp with macros := pp.macros.undef name }, d)
    else some (pp, d)
  | .Ifdef name =>
    some ({ pp with branches := Branch.new (pp.macros.defined name) :: pp.branches }, d)
  | .If cond =>
    some ({ pp with branches := Branch.new cond :: pp.branches }, d)
  | .Ifndef name =>
    some ({ pp with branches := Branch.new (!pp.macros.defined name) :: pp.branches }, d)
  | .Else =>
    match pp.branches with
    | [] => none
    | b :: rest =>
      match b.switch_to_else_branch with
      | none => none
      | some b => some ({ pp with branches := b :: rest }, d)
  | .Elif cond =>
    match pp.branches with
    | [] => none
    | _ :: rest =>
      some ({ pp with branches := Branch.new cond :: rest }, d)
  | .Endif =>
    match pp.branches with
    | [] => none
    | _ :: rest => some ({ pp with branches := rest }, d)
  | .Error _ =>
    if !ignore then none else some (pp, d)
  | .Warning _ =>
    if !ignore then
      if pp.no_warn then some (pp, d)
      else if pp.warnings_as_errors then none
      else some (pp, d)
    else some (pp, d)
  | .File =>
    if !ignore then some (pp, d) else some (pp, d)

/-- `Preprocessor::try_read_directive`: attempt the reader's directive
parse, then dispatch.  `some (pp, none)` is the source's `Ok(None)`
(no directive at the current position). -/
def try_read_directive (pp : Preprocessor) :
    Option (Preprocessor × Option Directive) :=
  match tryParseDirective pp.tokens with
  | none => some (pp, none)
  | some (d, rest) =>
    match dispatchDirective { pp with tokens := rest } d with
    | none => none
    | some (pp, d) => some (pp, some d)

/-- Outcome of one iteration of the `next_token` loop. -/
inductive IterOut
  | Ret (t : LexicalToken)
  | Cont
  | Stop
  | Error
deriving DecidableEq, Repr

/-- Step 4 of the `next_token` loop (`preprocessor.rs` lines 148-160):
read one raw token.  If a conditional branch frame is inactive the
token is discarded and the loop continues — before the
`can_directive_start` update; only a returned token updates the flag
(to true exactly when it is the period). -/
def readRawStep (pp : Preprocessor) : Preprocessor × IterOut :=
  match pp.tokens with
  | [] => (pp, .Stop)
  | t :: rest =>
    let pp := { pp with tokens := rest }
    if pp.ignore then (pp, .Cont)
    else
      ({ pp with can_directive_start := t.token == .Dot }, .Ret t)

/-- Steps 3 and 4 of the `next_token` loop: macro-call recognition
(skipped while a conditional branch frame is inactive), then the
raw-token step.  The fuel bounds macro expansion. -/
def nextTokenMacroStep (fuel : Nat) (pp : Preprocessor) :
    Preprocessor × IterOut :=
  if !pp.ignore then
    match tryReadMacroCall pp.macros pp.tokens with
    | some (m, rest) =>
      let pp := { pp with tokens := rest,
                          macro_calls := pp.macro_calls ++ [m] }
      match expandMacroFuel fuel pp m with
      | none => (pp, .Error)
      | some toks => ({ pp with expanded_tokens := toks }, .Cont)
    | none => readRawStep pp
  else readRawStep pp

/-- One iteration of the `next_token` loop: expanded-token FIFO first,
then the directive attempt (when allowed, a recognized module directive
additionally refills the FIFO with its re-expansion), then macro-call
recognition and the raw-token step. -/
def nextTokenIter (fuel : Nat) (pp : Preprocessor) :
    Preprocessor × IterOut :=
  match pp.expanded_tokens with
  | t :: rest => ({ pp with expanded_tokens := rest }, .Ret t)
  | [] =>
    if pp.can_directive_start then
      match try_read_directive pp with
      | none => (pp, .Error)
      | some (pp, some (Directive.Module name s)) =>
        ({ pp with expanded_tokens := moduleExpand name s,
                   directives := pp.directives ++ [Directive.Module name s] },
         .Cont)
      | some (pp, some d) =>
        ({ pp with directives := pp.directives ++ [d] }, .Cont)
      | some (pp, none) => nextTokenMacroStep fuel pp
    else nextTokenMacroStep fuel pp

/-- `Preprocessor::next_token`, fueled over the loop iterations; `none`
covers both the source's `Err(())` and fuel exhaustion. -/
def next_token : Nat → Preprocessor →
    Option (Preprocessor × Option LexicalToken)
  | 0, _ => none
  | Nat.succ fuel, pp =>
    match nextTokenIter (Nat.succ fuel) pp with
    | (pp, .Ret t) => some (pp, some t)
    | (pp, .Stop) => some (pp, none)
    | (_, .Error) => none
    | (pp, .Cont) => next_token fuel pp

end ErlPreproc

namespace Eir

/-- C8: comparison on `Integer` is total across both representations:
`partial_cmp` always returns `Some` (so `Ord::cmp` never panics), the
order agrees with the mathematical integer values, and `Small x`
compares equal to `Big x`. -/
theorem integer_order_total_agrees :
    (∀ a b : EirNumber.Integer,
        a.cmpPart b = some (compare a.toInt b.toInt)) ∧
    (∀ a b : EirNumber.Integer, (a.cmpFull b).isSome = true) ∧
    (∀ x : Int,
        (EirNumber.Integer.Small x).beq (EirNumber.Integer.Big x) = true) := by
  refine ⟨?_, ?_, ?_⟩
  · intro a b
    cases a <;> cases b <;> rfl
  · intro a b
    cases a <;> cases b <;> rfl
  · intro x
    simp [EirNumber.Integer.beq]

/-- C9: `add_op_ebb_call` in `Build` state is a silent no-op: no edge is
attached, nothing panics, and the builder (state included) is returned
unchanged. -/
theorem add_op_ebb_call_build_noop (b : FunctionBuilder) (c : EbbCall)
    (h : b.state = .Build) : b.add_op_ebb_call c = some b := by
  unfold FunctionBuilder.add_op_ebb_call
  rw [h]

/-- C9 witness: a fresh builder is in `Build` state; `add_op_ebb_call`
returns it unchanged. -/
theorem add_op_ebb_call_build_noop_witness :
    (FunctionBuilder.new (Function.new ⟨"m", "f", 0⟩)).add_op_ebb_call 0 =
      some (FunctionBuilder.new (Function.new ⟨"m", "f", 0⟩)) :=
  add_op_ebb_call_build_noop (FunctionBuilder.new (Function.new ⟨"m", "f", 0⟩)) 0 rfl

/-- The layout chain for C7: make block 0 the entry, splice block 1
after it, then splice the already-linked block 1 after block 0 a second
time. -/
def relinkChain : Option Layout :=
  match Layout.new.insert_ebb_first 0 with
  | none => none
  | some l => some ((l.insert_ebb_after 0 1).insert_ebb_after 0 1)

/-- C7: `insert_ebb_after` never asserts.  Re-splicing the
already-linked block 1 returns normally and corrupts the list: block 1
becomes its own successor.  The tail pointer is also never updated: it
still names block 0 although block 0 has a successor. -/
theorem insert_ebb_after_relink_corrupts :
    (relinkChain.map (fun l => (l.ebbs 1).next)) = some (some 1) ∧
    (relinkChain.map (fun l => l.last_ebb)) = some (some 0) ∧
    (relinkChain.map (fun l => (l.ebbs 0).next)) = some (some 1) :=
  ⟨rfl, rfl, rfl⟩

/-- The builder chain for C2: function `m:f/0`, entry block, a single
`op_move` of the constant atom, then `finish_ebb`. -/
def finishChain : Option FunctionBuilder :=
  let b0 := FunctionBuilder.new (Function.new ⟨"m", "f", 0⟩)
  match b0.insert_ebb_entry with
  | none => none
  | some (b, e) =>
    match b.position_at_end e with
    | none => none
    | some b =>
      let (b, v) := b.create_atomic (.Atom "ok")
      match b.op_move v with
      | none => none
      | some (b, _) => b.finish_ebb e

/-- C2: `finish_ebb` seals a block whose last op is a plain `Move` — not
a terminator — without complaint, and `Function::validate` has an empty
body, so the promised final terminator check never happens anywhere. -/
theorem finish_without_terminator_accepted :
    (finishChain.map (fun b => (b.fn.ebbs[0]?).map EbbData.finished))
        = some (some true) ∧
    (finishChain.map (fun b => b.fn.lastOpKind? 0)) = some (some .Move) ∧
    OpKind.isBlockTerminator .Move = false ∧
    (finishChain.map (fun b => b.fn.validate)) = some () :=
  ⟨rfl, rfl, rfl, rfl⟩

end Eir

namespace Eir

/-- Characterization of a successful `insert_op`: it requires `Build`
state, appends the op at the end of the arena, moves the cursor to it,
and leaves every other builder component untouched. -/
theorem insert_op_some_eq (b : FunctionBuilder) (d : OpData)
    (p : FunctionBuilder × Op) (h : b.insert_op d = some p) :
    p.2 = b.fn.ops.length ∧
    p.1.fn.ops = b.fn.ops ++ [d] ∧
    p.1.current_op = some b.fn.ops.length ∧
    p.1.state = BuilderState.Build ∧
    b.state = BuilderState.Build ∧
    p.1.fn.values = b.fn.values ∧
    p.1.fn.ebb_calls = b.fn.ebb_calls ∧
    p.1.current_ebb = b.current_ebb := by
  unfold FunctionBuilder.insert_op at h
  split at h
  · exact absurd h (by simp)
  next hc =>
    have hs : b.state = BuilderState.Build := not_not.mp hc
    split at h
    · exact absurd h (by simp)
    next ebb hce =>
      split at h
      · exact absurd h (by simp)
      next ebbData hge =>
        split at h
        · exact absurd h (by simp)
        next hfin =>
          split at h
          all_goals
            simp only [] at h
            split at h
            · exact absurd h (by simp)
            · split at h
              · exact absurd h (by simp)
              next layout hlay =>
                injection h with h
                subst h
                exact ⟨rfl, rfl, rfl, hs, hs, rfl, rfl, rfl⟩

end Eir

namespace Eir

/-- The builder chain for C1: entry block, `op_return_ok` of a constant
atom, leaving the cursor on a `ReturnOk` op. -/
def returnedChain : Option FunctionBuilder :=
  let b0 := FunctionBuilder.new (Function.new ⟨"m", "f", 0⟩)
  match b0.insert_ebb_entry with
  | none => none
  | some (b, e) =>
    match b.position_at_end e with
    | none => none
    | some b =>
      let (b, v) := b.create_atomic (.Atom "ok")
      b.op_return_ok v

/-- C1 counterexample: with the cursor on a `ReturnOk` op — a block
terminator kind — a further append (`op_move`, which goes through
`insert_op`) succeeds instead of failing: `insert_op` only rejects an
unconditional `Jump` at the cursor. -/
theorem append_after_return_ok_succeeds :
    (returnedChain.map
        (fun b => b.current_op.bind (fun o => b.fn.opKind? o)))
      = some (some .ReturnOk) ∧
    OpKind.isBlockTerminator .ReturnOk = true ∧
    ((returnedChain.bind (fun b => b.op_move 0)).map
        (fun p => p.1.fn.lastOpKind? 0))
      = some (some .Move) :=
  ⟨rfl, rfl, rfl⟩

/-- C1 (amended): any append through `insert_op` requires `Build`
state and a current block that is not finished, and fails when the op
at the cursor is an unconditional `Jump`; terminator kinds other than
`Jump` are not checked (see the counterexample). -/
theorem insert_op_requirements :
    (∀ (b : FunctionBuilder) (d : OpData),
      b.state ≠ .Build → b.insert_op d = none) ∧
    (∀ (b : FunctionBuilder) (d : OpData),
      b.current_ebb = none → b.insert_op d = none) ∧
    (∀ (b : FunctionBuilder) (d : OpData) (e : Ebb) (ed : EbbData),
      b.current_ebb = some e → b.fn.ebbs[e]? = some ed →
      ed.finished = true → b.insert_op d = none) ∧
    (∀ (b : FunctionBuilder) (d : OpData) (o : Op) (od : OpData),
      b.current_op = some o → b.fn.ops[o]? = some od →
      od.kind = .Jump → b.insert_op d = none) := by
  refine ⟨?_, ?_, ?_, ?_⟩
  · intro b d hs
    unfold FunctionBuilder.insert_op
    rw [if_pos hs]
  · intro b d hce
    unfold FunctionBuilder.insert_op
    split
    · rfl
    · rw [hce]
  · intro b d e ed hce hge hf
    unfold FunctionBuilder.insert_op
    split
    · rfl
    · rw [hce]
      simp [hge, hf]
  · intro b d o od hco hog hk
    unfold FunctionBuilder.insert_op
    split
    · rfl
    · cases hce : b.current_ebb with
      | none => rfl
      | some e =>
        cases hge : b.fn.ebbs[e]? with
        | none => simp [hge]
        | some ed =>
          by_cases hf : ed.finished
          · simp [hge, hf]
          · simp [hge, hf, hco, hog, hk]

/-- A plain `Move` op payload used by witnesses. -/
def opDataMove : OpData := { kind := .Move, reads := [], writes := [], ebb_calls := [] }

/-- A builder stuck in `OutstandingEbbCalls`. -/
def bNotBuild : FunctionBuilder :=
  { FunctionBuilder.new (Function.new ⟨"m", "f", 0⟩) with
    state := .OutstandingEbbCalls 1 }

/-- A fresh builder with no current block. -/
def bNoBlock : FunctionBuilder := FunctionBuilder.new (Function.new ⟨"m", "f", 0⟩)

/-- A builder positioned in an already-finished block. -/
def bFinished : FunctionBuilder :=
  { fn := { Function.new ⟨"m", "f", 0⟩ with
            ebbs := [{ arguments := [], finished := true }] },
    current_ebb := some 0, current_op := none, state := .Build }

/-- A builder whose cursor op is an unconditional `Jump`. -/
def bAtJump : FunctionBuilder :=
  { fn := { Function.new ⟨"m", "f", 0⟩ with
            ebbs := [{ arguments := [], finished := false }],
            ops := [{ kind := .Jump, reads := [], writes := [], ebb_calls := [] }] },
    current_ebb := some 0, current_op := some 0, state := .Build }

/-- C1 witness: each `insert_op` requirement fails on its concrete
builder. -/
theorem insert_op_requirements_witness :
    bNotBuild.insert_op opDataMove = none ∧
    bNoBlock.insert_op opDataMove = none ∧
    bFinished.insert_op opDataMove = none ∧
    bAtJump.insert_op opDataMove = none :=
  ⟨insert_op_requirements.1 bNotBuild opDataMove (by decide),
   insert_op_requirements.2.1 bNoBlock opDataMove rfl,
   insert_op_requirements.2.2.1 bFinished opDataMove 0
     { arguments := [], finished := true } rfl rfl rfl,
   insert_op_requirements.2.2.2 bAtJump opDataMove 0
     { kind := .Jump, reads := [], writes := [], ebb_calls := [] } rfl rfl rfl⟩

end Eir

namespace Eir

/-- A throwaway builder used as a `getD` fallback in witnesses. -/
def fbDefault : FunctionBuilder := FunctionBuilder.new (Function.new ⟨"x", "x", 0⟩)

/-- Builder positioned at the end of a fresh entry block, with two
constant values (module and function name) allocated. -/
def callStart : FunctionBuilder × Value × Value :=
  let b0 := FunctionBuilder.new (Function.new ⟨"m", "f", 0⟩)
  match b0.insert_ebb_entry with
  | none => (b0, 0, 0)
  | some (b, e) =>
    match b.position_at_end e with
    | none => (b0, 0, 0)
    | some b =>
      let (b, vm) := b.create_atomic (.Atom "m")
      let (b, vn) := b.create_atomic (.Atom "g")
      (b, vm, vn)

/-- Builder positioned at the end of a fresh entry block, with one
constant value and one block-call (to the entry block) allocated. -/
def branchStart : FunctionBuilder × Value × EbbCall :=
  let b0 := FunctionBuilder.new (Function.new ⟨"m", "f", 0⟩)
  match b0.insert_ebb_entry with
  | none => (b0, 0, 0)
  | some (b, e) =>
    match b.position_at_end e with
    | none => (b0, 0, 0)
    | some b =>
      let (b, v) := b.create_atomic (.Atom "x")
      let (b, c) := b.create_ebb_call e []
      (b, v, c)

/-- The C3 chain: emit `op_branch_not_truthy` from `branchStart`. -/
def branchChain : Option FunctionBuilder :=
  branchStart.1.op_branch_not_truthy branchStart.2.1 branchStart.2.2

/-- C3 counterexample: immediately after emitting a branch-not-truthy
op the builder state is `Build`, not `OutstandingEbbCalls 1`; the op's
single edge was already attached at emission. -/
theorem branch_not_truthy_leaves_build :
    (branchChain.map (fun b => b.state)) = some .Build ∧
    (branchChain.map (fun b => b.fn.lastOpKind? 0)) = some (some .IfTruthy) ∧
    (branchChain.map (fun b => (b.fn.ops[0]?).map OpData.ebb_calls))
      = some (some [0]) :=
  ⟨rfl, rfl, rfl⟩

/-- C3 (amended): `op_call`, `op_apply` and `op_case_body` enter
`OutstandingEbbCalls` with the kind's required edge count (1, 1, and
`num_clauses + 1` respectively); `op_branch_not_truthy` and
`op_case_start` instead attach their single edge directly at emission
and leave the builder in `Build`. -/
theorem branching_state_transitions :
    (∀ (b : FunctionBuilder) (m n : Value) (args : List Value)
        (r : FunctionBuilder × Value × Value),
      b.op_call m n args = some r → r.1.state = .OutstandingEbbCalls 1) ∧
    (∀ (b : FunctionBuilder) (f : Value) (args : List Value)
        (r : FunctionBuilder × Value × Value),
      b.op_apply f args = some r → r.1.state = .OutstandingEbbCalls 1) ∧
    (∀ (b : FunctionBuilder) (v : Value) (k : Nat) (b' : FunctionBuilder),
      b.op_case_body v k = some b' →
      b'.state = .OutstandingEbbCalls (k + 1)) ∧
    (∀ (b : FunctionBuilder) (v : Value) (c : EbbCall) (b' : FunctionBuilder),
      b.op_branch_not_truthy v c = some b' → b'.state = .Build) ∧
    (∀ (b : FunctionBuilder) (cl : List Clause) (v : Value)
        (vs : List Value) (body : Ebb) (r : FunctionBuilder × Value),
      b.op_case_start cl v vs body = some r → r.1.state = .Build) := by
  refine ⟨?_, ?_, ?_, ?_, ?_⟩
  · intro b m n args r h
    unfold FunctionBuilder.op_call at h
    split at h
    split at h
    simp only [] at h
    split at h
    · exact absurd h (by simp)
    · injection h with h
      subst h
      rfl
  · intro b f args r h
    unfold FunctionBuilder.op_apply at h
    split at h
    split at h
    simp only [] at h
    split at h
    · exact absurd h (by simp)
    · injection h with h
      subst h
      rfl
  · intro b v k b' h
    unfold FunctionBuilder.op_case_body at h
    split at h
    · exact absurd h (by simp)
    · injection h with h
      subst h
      rfl
  · intro b v c b' h
    unfold FunctionBuilder.op_branch_not_truthy at h
    split at h
    · exact absurd h (by simp)
    next b2 o heq =>
      injection h with h
      subst h
      exact (insert_op_some_eq _ _ _ heq).2.2.2.1
  · intro b cl v vs body r h
    unfold FunctionBuilder.op_case_start at h
    split at h
    simp only [] at h
    split at h
    · exact absurd h (by simp)
    next b2 o heq =>
      injection h with h
      subst h
      exact (insert_op_some_eq _ _ _ heq).2.2.2.1

/-- C3 witness: the five transitions at concrete builders. -/
theorem branching_state_transitions_witness :
    ((callStart.1.op_call callStart.2.1 callStart.2.2 []).getD
        (fbDefault, 0, 0)).1.state = .OutstandingEbbCalls 1 ∧
    ((callStart.1.op_apply callStart.2.1 []).getD
        (fbDefault, 0, 0)).1.state = .OutstandingEbbCalls 1 ∧
    ((callStart.1.op_case_body callStart.2.1 2).getD fbDefault).state
        = .OutstandingEbbCalls 3 ∧
    (branchChain.getD fbDefault).state = .Build ∧
    ((callStart.1.op_case_start [] callStart.2.1 [] 0).getD
        (fbDefault, 0)).1.state = .Build :=
  ⟨branching_state_transitions.1 callStart.1 callStart.2.1 callStart.2.2 [] _ rfl,
   branching_state_transitions.2.1 callStart.1 callStart.2.1 [] _ rfl,
   branching_state_transitions.2.2.1 callStart.1 callStart.2.1 2 _ rfl,
   branching_state_transitions.2.2.2.1 branchStart.1 branchStart.2.1
     branchStart.2.2 _ rfl,
   branching_state_transitions.2.2.2.2 callStart.1 [] callStart.2.1 [] 0 _ rfl⟩

end Eir

namespace Eir

/-- C4: a successful `op_call(module, name, args)` emits an op that
reads exactly `[module, name, ...args]` and writes exactly the two
fresh result variables (the next two value ids), leaves the builder in
`OutstandingEbbCalls 1` with the cursor on the new op, and one
subsequent `add_op_ebb_call` attaches exactly that one edge to the op
and returns the builder to `Build`. -/
theorem op_call_contract (b : FunctionBuilder) (m n : Value)
    (args : List Value) (r : FunctionBuilder × Value × Value) (c : EbbCall)
    (h : b.op_call m n args = some r) :
    r.2.1 = b.fn.values.length ∧
    r.2.2 = b.fn.values.length + 1 ∧
    r.1.fn.ops[b.fn.ops.length]? =
      some { kind := .Call false, reads := [m, n] ++ args,
             writes := [r.2.1, r.2.2], ebb_calls := [] } ∧
    r.1.state = .OutstandingEbbCalls 1 ∧
    r.1.current_op = some b.fn.ops.length ∧
    (r.1.add_op_ebb_call c).map
        (fun b2 => (b2.state, b2.fn.ops[b.fn.ops.length]?)) =
      some (BuilderState.Build,
            some { kind := .Call false, reads := [m, n] ++ args,
                   writes := [r.2.1, r.2.2], ebb_calls := [c] }) := by
  unfold FunctionBuilder.op_call at h
  split at h
  rename_i x1 f1 v1 heq1
  split at h
  rename_i x2 f2 v2 heq2
  simp only [] at h
  split at h
  · exact absurd h (by simp)
  next b2 o heq =>
    injection h with h
    subst h
    unfold Function.new_variable at heq1
    injection heq1 with hf1 hv1
    subst hf1
    subst hv1
    unfold Function.new_variable at heq2
    injection heq2 with hf2 hv2
    subst hf2
    subst hv2
    obtain ⟨hlen, hops, hcur, hst, hbst, hvals, hcalls, hebb⟩ :=
      insert_op_some_eq _ _ _ heq
    have hget : b2.fn.ops[b.fn.ops.length]? = some
        { kind := OpKind.Call false, reads := [m, n] ++ args,
          writes := [b.fn.values.length,
                     (b.fn.values ++ [ValueType.Variable]).length],
          ebb_calls := [] } := by
      rw [hops]
      exact List.getElem?_concat_length _ _
    refine ⟨rfl, by simp, ?_, rfl, ?_, ?_⟩
    · exact hget
    · exact hcur
    · unfold FunctionBuilder.add_op_ebb_call
      simp only [] at hcur
      simp only [hcur, hget, Option.map_some', if_true, List.nil_append,
                 Option.some.injEq, Prod.mk.injEq, true_and]
      simp only [] at hops
      rw [List.getElem?_set_eq_of_lt]
      rw [hops]
      simp

/-- The op_call result at the concrete `callStart` builder. -/
def callRes : FunctionBuilder × Value × Value :=
  (callStart.1.op_call callStart.2.1 callStart.2.2 []).getD (fbDefault, 0, 0)

/-- C4 witness: the contract at the concrete call `m:g()` in the entry
block. -/
theorem op_call_contract_witness :
    callRes.2.1 = callStart.1.fn.values.length ∧
    callRes.2.2 = callStart.1.fn.values.length + 1 ∧
    callRes.1.fn.ops[callStart.1.fn.ops.length]? =
      some { kind := .Call false,
             reads := [callStart.2.1, callStart.2.2] ++ [],
             writes := [callRes.2.1, callRes.2.2], ebb_calls := [] } ∧
    callRes.1.state = .OutstandingEbbCalls 1 ∧
    callRes.1.current_op = some callStart.1.fn.ops.length ∧
    (callRes.1.add_op_ebb_call 0).map
        (fun b2 => (b2.state, b2.fn.ops[callStart.1.fn.ops.length]?)) =
      some (BuilderState.Build,
            some { kind := .Call false,
                   reads := [callStart.2.1, callStart.2.2] ++ [],
                   writes := [callRes.2.1, callRes.2.2], ebb_calls := [0] }) :=
  op_call_contract callStart.1 callStart.2.1 callStart.2.2 [] callRes 0 rfl

end Eir

namespace ErlPreproc

/-- The `LINE` arm of the predefined probe, isolated. -/
theorem tryExpandPredefined_line (pp : Preprocessor) (call : MacroCall)
    (hname : call.callName = "LINE") :
    tryExpandPredefined pp call =
      match pp.codemap[call.span_start.sourceId]? with
      | none => none
      | some file =>
        some (some { startIdx := call.span_start,
                     token := .IntTok (Int.ofNat (file.lineIndex call.span_start.index)),
                     endIdx := call.span_end }) := by
  unfold tryExpandPredefined
  rw [hname]
  rfl

/-- C5: a `LINE` macro call expands — both in the predefined probe and
through `expand_macro` — to the single integer token whose value is the
code map's line index of the call site; with the spec-modelled 1-based
`line_index`, a call site anywhere on the first line of its file yields
the integer 1. -/
theorem line_expansion_contract (pp : Preprocessor) (call : MacroCall)
    (file : SourceFile) (fuel : Nat)
    (hname : call.callName = "LINE")
    (hfile : pp.codemap[call.span_start.sourceId]? = some file) :
    tryExpandPredefined pp call =
      some (some { startIdx := call.span_start,
                   token := .IntTok (Int.ofNat (file.lineIndex call.span_start.index)),
                   endIdx := call.span_end }) ∧
    expandMacroFuel (fuel + 1) pp call =
      some [{ startIdx := call.span_start,
              token := .IntTok (Int.ofNat (file.lineIndex call.span_start.index)),
              endIdx := call.span_end }] ∧
    (file.lineStarts.head? = some 0 →
      (∀ s ∈ file.lineStarts.tail, call.span_start.index < s) →
      file.lineIndex call.span_start.index = 1) := by
  have h1 : tryExpandPredefined pp call =
      some (some { startIdx := call.span_start,
                   token := .IntTok (Int.ofNat (file.lineIndex call.span_start.index)),
                   endIdx := call.span_end }) := by
    rw [tryExpandPredefined_line pp call hname, hfile]
  refine ⟨h1, ?_, ?_⟩
  · show expandMacroFuel (Nat.succ fuel) pp call = _
    unfold expandMacroFuel
    rw [h1]
  · intro hhead hall
    unfold SourceFile.lineIndex
    cases hls : file.lineStarts with
    | nil =>
      rw [hls] at hhead
      cases hhead
    | cons a t =>
      rw [hls] at hhead hall
      have ha : a = 0 := by simpa using hhead
      subst ha
      have ht : t.filter (fun s => decide (s ≤ call.span_start.index)) = [] := by
        apply List.filter_eq_nil_iff.mpr
        intro s hs
        simp only [decide_eq_true_eq]
        exact Nat.not_le.mpr (hall s (by simpa using hs))
      rw [List.filter_cons_of_pos (by simp), ht]
      rfl

/-- Concrete C5 source file: lines start at offsets 0 and 10. -/
def fileC5 : SourceFile := { name := "foo.erl", lineStarts := [0, 10] }

/-- Concrete C5 preprocessor holding only `fileC5` in its code map. -/
def ppC5 : Preprocessor :=
  { codemap := [fileC5], can_directive_start := true, directives := [],
    include_files := [], branches := [], macros := .new, macro_calls := [],
    expanded_tokens := [], tokens := [], warnings_as_errors := false,
    no_warn := false }

/-- A `LINE` call at byte 3 — the first line — of `fileC5`. -/
def callC5 : MacroCall :=
  { callName := "LINE", args := none,
    span_start := { sourceId := 0, index := 3 },
    span_end := { sourceId := 0, index := 8 } }

/-- C5 witness: the `LINE` call on the first line expands to the single
integer token `1`. -/
theorem line_expansion_contract_witness :
    tryExpandPredefined ppC5 callC5 =
      some (some { startIdx := callC5.span_start, token := .IntTok 1,
                   endIdx := callC5.span_end }) ∧
    expandMacroFuel 1 ppC5 callC5 =
      some [{ startIdx := callC5.span_start, token := .IntTok 1,
              endIdx := callC5.span_end }] ∧
    fileC5.lineIndex callC5.span_start.index = 1 := by
  have h := line_expansion_contract ppC5 callC5 fileC5 0 rfl rfl
  exact ⟨h.1.trans (by decide), h.2.1.trans (by decide),
         h.2.2 rfl (by decide)⟩

end ErlPreproc

namespace ErlPreproc

/-- The single raw period token used in the C6 states. -/
def dotTok : LexicalToken :=
  { startIdx := { sourceId := 0, index := 0 }, token := .Dot,
    endIdx := { sourceId := 0, index := 1 } }

/-- The C6 preprocessor: one inactive conditional frame, the flag down,
and just the raw period token in the reader. -/
def ppC6 : Preprocessor :=
  { codemap := [], can_directive_start := false, directives := [],
    include_files := [],
    branches := [{ then_branch := true, entered := false }],
    macros := .new, macro_calls := [], expanded_tokens := [],
    tokens := [dotTok], warnings_as_errors := false, no_warn := false }

/-- C6 counterexample: the period token is read and discarded because a
branch frame is inactive, the loop continues, and `can_directive_start`
is NOT updated — it stays `false` although the raw token was the
period. -/
theorem ignored_dot_keeps_flag :
    nextTokenIter 1 ppC6 = ({ ppC6 with tokens := [] }, .Cont) ∧
    (nextTokenIter 1 ppC6).1.can_directive_start = false :=
  ⟨rfl, rfl⟩

/-- C6 (amended): in the raw-token step, a returned token sets
`can_directive_start` to true exactly when it is the period; a token
discarded because a conditional branch frame is inactive is dropped
before the update, leaving the flag unchanged. -/
theorem raw_token_flag_update (pp : Preprocessor) (t : LexicalToken)
    (rest : List LexicalToken) (h : pp.tokens = t :: rest) :
    (pp.ignore = true →
      readRawStep pp = ({ pp with tokens := rest }, .Cont)) ∧
    (pp.ignore = false →
      readRawStep pp =
        ({ pp with tokens := rest,
                   can_directive_start := t.token == .Dot }, .Ret t)) := by
  constructor
  · intro hig
    unfold readRawStep
    rw [h]
    simp only [Preprocessor.ignore] at hig
    simp [Preprocessor.ignore, hig]
  · intro hig
    unfold readRawStep
    rw [h]
    simp only [Preprocessor.ignore] at hig
    simp [Preprocessor.ignore, hig]

/-- The C6 state with the branch stack empty (nothing ignored). -/
def ppC6b : Preprocessor := { ppC6 with branches := [] }

/-- C6 witness: the discarded period leaves the flag unchanged at
`ppC6`; the returned period raises it at `ppC6b`. -/
theorem raw_token_flag_update_witness :
    readRawStep ppC6 = ({ ppC6 with tokens := [] }, .Cont) ∧
    readRawStep ppC6b =
      ({ ppC6b with tokens := [], can_directive_start := true },
       .Ret dotTok) :=
  ⟨(raw_token_flag_update ppC6 dotTok [] rfl).1 rfl,
   ((raw_token_flag_update ppC6b dotTok [] rfl).2 rfl).trans (by decide)⟩

/-- C10: the module directive records `MODULE` and `MODULE_STRING`,
both bound to the module name, even while a conditional branch frame is
inactive; `define`, `undef` and `include` are guarded by the ignore
flag and leave the state untouched then. -/
theorem module_directive_unguarded (pp : Preprocessor) (name : String)
    (s : SourceIndex) (dd : MacroDefine) (un : String) (path : String)
    (hig : pp.ignore = true) :
    (dispatchDirective pp (.Module name s)).map
        (fun r => (r.1.macros.getIdent (.Const "MODULE"),
                   r.1.macros.getIdent (.Const "MODULE_STRING"), r.2)) =
      some (some (.String name), some (.String name), .Module name s) ∧
    dispatchDirective pp (.Define dd) = some (pp, .Define dd) ∧
    dispatchDirective pp (.Undef un) = some (pp, .Undef un) ∧
    dispatchDirective pp (.Include path) = some (pp, .Include path) := by
  refine ⟨?_, ?_, ?_, ?_⟩
  · rfl
  · unfold dispatchDirective
    simp [hig]
  · unfold dispatchDirective
    simp [hig]
  · unfold dispatchDirective
    simp [hig]

/-- The C10 preprocessor: inside an inactive conditional branch. -/
def ppC10 : Preprocessor :=
  { codemap := [], can_directive_start := true, directives := [],
    include_files := [],
    branches := [{ then_branch := true, entered := false }],
    macros := .new, macro_calls := [], expanded_tokens := [], tokens := [],
    warnings_as_errors := false, no_warn := false }

/-- A sample `-define(X, ...)` payload. -/
def ddC10 : MacroDefine := { defName := "X", vars := none, replacement := [] }

/-- The name undefined in the C10 witness. -/
def unC10 : String := "X"

/-- C10 witness: at `ppC10` (ignoring), the module directive records the
two macros while define, undef, and include are no-ops. -/
theorem module_directive_unguarded_witness :
    (dispatchDirective ppC10 (.Module "mymod" SourceIndex.unknown)).map
        (fun r => (r.1.macros.getIdent (.Const "MODULE"),
                   r.1.macros.getIdent (.Const "MODULE_STRING"), r.2)) =
      some (some (.String "mymod"), some (.String "mymod"),
            .Module "mymod" SourceIndex.unknown) ∧
    dispatchDirective ppC10 (.Define ddC10) = some (ppC10, .Define ddC10) ∧
    dispatchDirective ppC10 (.Undef unC10) = some (ppC10, .Undef unC10) ∧
    dispatchDirective ppC10 (.Include "inc.hrl") =
      some (ppC10, .Include "inc.hrl") :=
  module_directive_unguarded ppC10 "mymod" SourceIndex.unknown ddC10 unC10
    "inc.hrl" rfl

end ErlPreproc
